import Mathlib

/-!
Shallow embedding of the VANTA student–staff appointment booking
application: the client-side slot generator (`AppointmentModal.fetchAvailableSlots`),
the appointment lifecycle actions on the Appointments page
(`updateAppointmentStatus`, `deleteAppointment`, `canCancelAppointment` and the
role-gated action buttons), the row-level security policies of the
`appointments` table from the SQL migration, the booking path
(`AppointmentModal.onSubmit`), and the retry/timeout logic of
`AuthContext.initializeAuth`.

Times of day appear in the source as zero-padded `"HH:MM"` strings (Postgres
`time` values rendered by the client, and slot strings built with
`padStart(2, '0')`).  The source compares them with JavaScript string
equality (`===`) and lexicographic string order (`<`, `>`); on zero-padded
two-digit components this coincides exactly with lexicographic numeric order
on the (hour, minute) pair, so we embed a time as such a pair.
-/

namespace Vanta

/-- Time of day, modelling a zero-padded "HH:MM" string of the source. -/
structure Time where
  hour : Nat
  minute : Nat
deriving DecidableEq, Repr

/-- Lexicographic order on (hour, minute): the order JavaScript string
comparison induces on zero-padded "HH:MM" strings. -/
def Time.lt (a b : Time) : Bool :=
  decide (a.hour < b.hour) || (a.hour == b.hour && decide (a.minute < b.minute))

/-- Minutes since midnight. -/
def Time.toMinutes (t : Time) : Nat :=
  t.hour * 60 + t.minute

/-- Appointment status enumeration (`appointment_status` in the migration). -/
inductive Status where
  | pending
  | approved
  | declined
  | cancelled
  | completed
deriving DecidableEq, Repr

/-- Terminal lifecycle states per the spec's state machine. -/
def Status.isTerminal : Status → Bool
  | .declined => true
  | .cancelled => true
  | .completed => true
  | _ => false

/-- User roles (`user_role` in the migration). -/
inductive Role where
  | student
  | staff
deriving DecidableEq, Repr

/-- Row of the `staff_availability` table (fields the client reads). -/
structure StaffAvailability where
  staff_id : String
  day_of_week : Nat
  start_time : Time
  end_time : Time
  is_available : Bool
deriving DecidableEq, Repr

/-- Row of the `appointments` table (fields the client reads / writes).
`appointment_date` is modelled as a day index; the instant
`parseISO(date + "T" + time)` of the source becomes
`date * 1440 + time.toMinutes` minutes. -/
structure Appointment where
  id : String
  student_id : String
  staff_id : String
  appointment_date : Nat
  start_time : Time
  end_time : Time
  status : Status
  subject : Option String := none
  notes : Option String := none
  staff_notes : Option String := none
deriving DecidableEq, Repr

/-- Instant (in minutes) of a date/time pair, modelling
`parseISO(appointment_date + "T" + t)`. -/
def instantOf (date : Nat) (t : Time) : Nat :=
  date * 1440 + t.toMinutes

/-- date-fns `isPast(d)`: d is strictly before the current instant. -/
def isPast (now instant : Nat) : Bool :=
  decide (instant < now)

/-- A bookable slot produced by the generator
(`interface TimeSlot` in AppointmentModal). -/
structure TimeSlot where
  start_time : Time
  end_time : Time
deriving DecidableEq, Repr

/-! ### Slot generator (`AppointmentModal.fetchAvailableSlots`) -/

/-- The availability query of `fetchAvailableSlots`:
`.eq('staff_id', staffId).eq('day_of_week', dayOfWeek).eq('is_available', true)`. -/
def availabilityQuery (table : List StaffAvailability) (staffId : String)
    (dayOfWeek : Nat) : List StaffAvailability :=
  table.filter fun a =>
    a.staff_id == staffId && a.day_of_week == dayOfWeek && a.is_available

/-- The appointments query of `fetchAvailableSlots`:
`.eq('staff_id', staffId).eq('appointment_date', date).in('status', ['pending', 'approved'])`. -/
def bookedQuery (table : List Appointment) (staffId : String) (date : Nat) :
    List Appointment :=
  table.filter fun a =>
    a.staff_id == staffId && a.appointment_date == date &&
      (a.status == .pending || a.status == .approved)

/-- The per-slot booking test of `fetchAvailableSlots`:
`appointments?.some(apt => apt.start_time === startTime || (apt.start_time < startTime && apt.end_time > startTime))`. -/
def isBooked (appointments : List Appointment) (startTime : Time) : Bool :=
  appointments.any fun apt =>
    apt.start_time == startTime ||
      (Time.lt apt.start_time startTime && Time.lt startTime apt.end_time)

/-- Slots contributed by one availability window: the source takes
`parseInt(avail.start_time.split(':')[0])` and
`parseInt(avail.end_time.split(':')[0])` — the hour components — and for each
`hour` in `[startHour, endHour)` offers the slot `hour:00 – (hour+1):00`
unless `isBooked` rejects it. -/
def slotsForWindow (appointments : List Appointment) (avail : StaffAvailability) :
    List TimeSlot :=
  let startHour := avail.start_time.hour
  let endHour := avail.end_time.hour
  (List.range' startHour (endHour - startHour)).filterMap fun hour =>
    let startTime : Time := ⟨hour, 0⟩
    let endTime : Time := ⟨hour + 1, 0⟩
    if isBooked appointments startTime then none
    else some ⟨startTime, endTime⟩

/-- The slot-generation core: every window contributes its surviving slots, in
window order (the `availability.forEach` loop pushing onto `slots`). -/
def generateSlots (availability : List StaffAvailability)
    (appointments : List Appointment) : List TimeSlot :=
  availability.flatMap (slotsForWindow appointments)

/-- `fetchAvailableSlots`: query both tables, then generate slots. -/
def fetchAvailableSlots (availabilityTable : List StaffAvailability)
    (appointmentsTable : List Appointment) (staffId : String) (date : Nat)
    (dayOfWeek : Nat) : List TimeSlot :=
  generateSlots (availabilityQuery availabilityTable staffId dayOfWeek)
    (bookedQuery appointmentsTable staffId date)

/-! ### Appointment lifecycle actions (`src/pages/Appointments.tsx`) -/

/-- Record mutation performed by `updateAppointmentStatus`: the update payload
is `{ status: newStatus }`, plus `staff_notes: notes` when `notes` was passed.
There is no check of the current status and no failure path. -/
def applyStatusUpdate (newStatus : Status) (notes : Option String)
    (a : Appointment) : Appointment :=
  { a with
    status := newStatus
    staff_notes := match notes with
      | some n => some n
      | none => a.staff_notes }

/-- `updateAppointmentStatus(appointmentId, newStatus, notes?)`: the store
applies the update payload to every row matching `.eq('id', appointmentId)`. -/
def updateAppointmentStatus (store : List Appointment) (appointmentId : String)
    (newStatus : Status) (notes : Option String) : List Appointment :=
  store.map fun a =>
    if a.id == appointmentId then applyStatusUpdate newStatus notes a else a

/-- `deleteAppointment(appointmentId)` (after the user confirms the dialog):
the store deletes every row matching `.eq('id', appointmentId)`, with no
status or transition check. -/
def deleteAppointment (store : List Appointment) (appointmentId : String) :
    List Appointment :=
  store.filter fun a => !(a.id == appointmentId)

/-- `canCancelAppointment`: status is pending or approved, and the start
instant `parseISO(date + "T" + start_time)` is not in the past. -/
def canCancelAppointment (now : Nat) (a : Appointment) : Bool :=
  (a.status == .pending || a.status == .approved) &&
    !(isPast now (instantOf a.appointment_date a.start_time))

/-- A signed-in profile as the Appointments page sees it. -/
structure Profile where
  user_id : String
  role : Role
deriving DecidableEq, Repr

/-- `fetchAppointments`: students query `.eq('student_id', profile.user_id)`,
staff query `.eq('staff_id', profile.user_id)`; the page only renders (and
offers actions on) the rows this returns. -/
def visibleAppointments (p : Profile) (store : List Appointment) :
    List Appointment :=
  store.filter fun a =>
    match p.role with
    | .student => a.student_id == p.user_id
    | .staff => a.staff_id == p.user_id

/-- The Cancel button: rendered only inside the `profile?.role === 'student'`
branch, guarded by `canCancelAppointment(appointment)`.  The staff branch
renders no cancel action. -/
def cancelOffered (role : Role) (now : Nat) (a : Appointment) : Bool :=
  role == .student && canCancelAppointment now a

/-- The Approve button (requesting pending → approved): rendered only inside
the `profile?.role === 'staff'` branch, for `appointment.status === 'pending'`. -/
def approveOffered (role : Role) (a : Appointment) : Bool :=
  role == .staff && a.status == .pending

/-- The Mark Complete button (requesting approved → completed): rendered in the
staff branch when `appointment.status === 'approved' &&
!isPast(parseISO(date + "T" + end_time))`. -/
def markCompleteOffered (role : Role) (now : Nat) (a : Appointment) : Bool :=
  role == .staff && a.status == .approved &&
    !(isPast now (instantOf a.appointment_date a.end_time))

/-- The Delete button: rendered only inside the student branch, for
`appointment.status === 'pending'` (no time check). -/
def deleteOffered (role : Role) (a : Appointment) : Bool :=
  role == .student && a.status == .pending

/-! ### Row-level security on `appointments` (migration `old_coast.sql`)

Two permissive `FOR ALL` policies govern writes to `appointments`:
"Students can manage own appointments" (`USING`/`WITH CHECK`
`student_id = auth.uid()`) and "Staff can manage appointments with them"
(`USING`/`WITH CHECK` `staff_id = auth.uid()`).  Permissive policies are
OR-combined. -/

/-- Whether the authenticated user `uid` may read/update/delete a given
`appointments` row under the migration's policies. -/
def rlsAppointmentWriteAllowed (uid : String) (a : Appointment) : Bool :=
  a.student_id == uid || a.staff_id == uid

/-! ### Booking (`AppointmentModal.onSubmit`, insert branch)

The `appointments` table of the migration carries no uniqueness or overlap
constraint beyond its primary key (ids are server-generated and fresh), so an
insert always succeeds; `onSubmit` performs no conflict query before
inserting. -/

/-- Form data submitted by the booking modal. -/
structure AppointmentForm where
  staff_id : String
  appointment_date : Nat
  start_time : Time
  end_time : Time
  subject : Option String := none
  notes : Option String := none
deriving DecidableEq, Repr

/-- The `appointmentData` record built by `onSubmit`, with
`status: 'pending'`; `newId` models the server-generated primary key. -/
def mkAppointmentData (newId studentId : String) (f : AppointmentForm) :
    Appointment :=
  { id := newId
    student_id := studentId
    staff_id := f.staff_id
    appointment_date := f.appointment_date
    start_time := f.start_time
    end_time := f.end_time
    status := .pending
    subject := f.subject
    notes := f.notes
    staff_notes := none }

/-- Insert into the `appointments` table: unconditional append — the schema
has no constraint that could reject it. -/
def insertAppointment (store : List Appointment) (a : Appointment) :
    List Appointment :=
  store ++ [a]

/-- The booking path of `onSubmit` (non-editing branch): build
`appointmentData` and insert it. -/
def bookAppointment (store : List Appointment) (newId studentId : String)
    (f : AppointmentForm) : List Appointment :=
  insertAppointment store (mkAppointmentData newId studentId f)

/-- The store-level conflict test the spec calls for (and the reviewed code
never performs): some pending/approved appointment of the same staff member on
the same date already has this start time. -/
def slotConflict (store : List Appointment) (staffId : String) (date : Nat)
    (start : Time) : Bool :=
  store.any fun a =>
    a.staff_id == staffId && a.appointment_date == date &&
      a.start_time == start && (a.status == .pending || a.status == .approved)

/-- Whether two distinct non-cancelled/non-declined appointments of the same
staff member on the same date overlap in time (the §3 advisory invariant,
violated when this is true). -/
def overlappingActivePairExists (store : List Appointment) : Bool :=
  store.any fun a =>
    store.any fun b =>
      !(a.id == b.id) && a.staff_id == b.staff_id &&
        a.appointment_date == b.appointment_date &&
        !(a.status == .cancelled || a.status == .declined) &&
        !(b.status == .cancelled || b.status == .declined) &&
        Time.lt a.start_time b.end_time && Time.lt b.start_time a.end_time

/-! ### Auth initialization (`AuthContext.initializeAuth`) -/

/-- `const maxRetries = 3`. -/
def maxRetries : Nat := 3

/-- `const retryDelay = 2000` (milliseconds). -/
def retryDelay : Nat := 2000

/-- Timeout of the session fetch raced inside `initializeAuth`:
`setTimeout(..., 10000)`. -/
def sessionTimeoutMs : Nat := 10000

/-- Timeout of the profile fetch raced inside `fetchProfile`:
`setTimeout(..., 5000)`. -/
def profileTimeoutMs : Nat := 5000

/-- Outcome state of `initializeAuth`: how many attempts ran, the total
backoff slept between them, and the `isDemo` / `error` / `loading` state left
behind. -/
structure AuthInitResult where
  attempts : Nat
  totalSleepMs : Nat
  isDemo : Bool
  errorMsg : Option String
  loading : Bool
deriving DecidableEq, Repr

/-- `initializeAuth(attempt = 1)`: try once (`succeeds attempt` abstracts
whether this attempt's session fetch succeeds within its timeout); on failure,
while `attempt < maxRetries`, sleep `retryDelay` and recurse with
`attempt + 1`; after the final failure set the demo flag and the error message
and stop loading. -/
def initializeAuth (succeeds : Nat → Bool) (attempt : Nat) : AuthInitResult :=
  if succeeds attempt then
    { attempts := attempt, totalSleepMs := 0, isDemo := false,
      errorMsg := none, loading := false }
  else if h : attempt < maxRetries then
    let r := initializeAuth succeeds (attempt + 1)
    { r with totalSleepMs := retryDelay + r.totalSleepMs }
  else
    { attempts := attempt, totalSleepMs := 0, isDemo := true,
      errorMsg := some "Connection failed. Running in demo mode.",
      loading := false }
termination_by maxRetries - attempt

/-! ### Concrete fixtures used by counterexamples and witnesses -/

/-- An availability window 09:30–11:30 (start and end carry nonzero minutes). -/
def window0930 : StaffAvailability :=
  { staff_id := "staffS"
    day_of_week := 1
    start_time := ⟨9, 30⟩
    end_time := ⟨11, 30⟩
    is_available := true }

/-- The slot 09:00–10:00. -/
def slot0900 : TimeSlot := ⟨⟨9, 0⟩, ⟨10, 0⟩⟩

/-- An approved appointment whose window 09:00–10:00 on day 0 has elapsed. -/
def apptElapsedApproved : Appointment :=
  { id := "a1"
    student_id := "stu1"
    staff_id := "staffA"
    appointment_date := 0
    start_time := ⟨9, 0⟩
    end_time := ⟨10, 0⟩
    status := .approved }

/-- A completed (terminal) appointment. -/
def apptCompleted : Appointment :=
  { id := "a2"
    student_id := "stu1"
    staff_id := "staffA"
    appointment_date := 3
    start_time := ⟨9, 0⟩
    end_time := ⟨10, 0⟩
    status := .completed }

/-- A pending appointment on day 10 (in the future for `now = 0`). -/
def apptFuturePending : Appointment :=
  { id := "a3"
    student_id := "stu1"
    staff_id := "staffA"
    appointment_date := 10
    start_time := ⟨9, 0⟩
    end_time := ⟨10, 0⟩
    status := .pending }

/-- A pending appointment dated day 0 ("yesterday" relative to `nowMidday1`). -/
def apptPendingYesterday : Appointment :=
  { apptFuturePending with id := "a4", appointment_date := 0 }

/-- A pending appointment dated day 2 ("tomorrow" relative to `nowMidday1`). -/
def apptPendingTomorrow : Appointment :=
  { apptFuturePending with id := "a5", appointment_date := 2 }

/-- Noon of day 1, as an instant. -/
def nowMidday1 : Nat := instantOf 1 ⟨12, 0⟩

/-- Booking form for the 09:00–10:00 slot of staff "staffS" on day 7. -/
def formSlot0900 : AppointmentForm :=
  { staff_id := "staffS"
    appointment_date := 7
    start_time := ⟨9, 0⟩
    end_time := ⟨10, 0⟩ }

/-- The store after student A books the 09:00 slot. -/
def storeAfterA : List Appointment := bookAppointment [] "idA" "stuA" formSlot0900

/-- The store after student B books the very same slot afterwards. -/
def storeAfterB : List Appointment :=
  bookAppointment storeAfterA "idB" "stuB" formSlot0900

/-- A window with start and end on whole hours, keeping a window's other
fields: the part of a window the slot generator actually reads. -/
def truncateWindowToHours (w : StaffAvailability) : StaffAvailability :=
  { w with start_time := ⟨w.start_time.hour, 0⟩, end_time := ⟨w.end_time.hour, 0⟩ }

/-! ### Helper lemmas -/

theorem Time.lt_iff (a b : Time) :
    Time.lt a b = true ↔ a.hour < b.hour ∨ (a.hour = b.hour ∧ a.minute < b.minute) := by
  simp [Time.lt]

theorem Time.lt_asymm {a b : Time} (h : Time.lt a b = true) : Time.lt b a = false := by
  rw [Time.lt_iff] at h
  rw [Bool.eq_false_iff]
  intro hc
  rw [Time.lt_iff] at hc
  omega

theorem Time.ne_of_lt {a b : Time} (h : Time.lt a b = true) : a ≠ b := by
  rw [Time.lt_iff] at h
  intro hc
  cases hc
  omega

theorem mem_slotsForWindow {B : List Appointment} {w : StaffAvailability}
    {s : TimeSlot} :
    s ∈ slotsForWindow B w ↔
      ∃ h : Nat, w.start_time.hour ≤ h ∧ h + 1 ≤ w.end_time.hour ∧
        isBooked B ⟨h, 0⟩ = false ∧ s = ⟨⟨h, 0⟩, ⟨h + 1, 0⟩⟩ := by
  simp only [slotsForWindow, List.mem_filterMap, List.mem_range']
  constructor
  · rintro ⟨h, ⟨i, hi, rfl⟩, heq⟩
    by_cases hb : isBooked B ⟨w.start_time.hour + i, 0⟩ = true
    · simp [hb] at heq
    · rw [Bool.not_eq_true] at hb
      refine ⟨w.start_time.hour + i, by omega, by omega, hb, ?_⟩
      simp [hb] at heq
      exact heq.symm
  · rintro ⟨h, h1, h2, hb, rfl⟩
    exact ⟨h, ⟨h - w.start_time.hour, by omega, by omega⟩, by simp [hb]⟩

theorem mem_generateSlots {W : List StaffAvailability} {B : List Appointment}
    {s : TimeSlot} :
    s ∈ generateSlots W B ↔ ∃ w ∈ W, s ∈ slotsForWindow B w := by
  simp [generateSlots]

theorem isBooked_eq_false_iff {B : List Appointment} {t : Time} :
    isBooked B t = false ↔
      ∀ b ∈ B,
        (b.start_time == t ||
          (Time.lt b.start_time t && Time.lt t b.end_time)) = false := by
  simp only [isBooked, List.any_eq_false, Bool.not_eq_true]

/-! ### Claim theorems -/

/-- C1 (counterexample): the claim "every slot returned by the slot generator
is fully contained within some window of W" is false: for the single window
09:30–11:30 with no bookings, the generator returns the slot 09:00–10:00,
which is contained in no window of W (it starts before 09:30). -/
theorem slot_containment_cex :
    slot0900 ∈ generateSlots [window0930] [] ∧
      ¬∃ w ∈ [window0930],
        w.start_time.toMinutes ≤ slot0900.start_time.toMinutes ∧
          slot0900.end_time.toMinutes ≤ w.end_time.toMinutes := by
  decide

/-- C1 (amended): every slot returned by the slot generator lies within the
whole-hour span `[start_time.hour:00, end_time.hour:00]` of some window of W
(hence within the window itself whenever every window starts and ends on a
whole hour), has length exactly one hour, and its start instant differs from
the start instant of every interval in B. -/
theorem slot_generator_sound (W : List StaffAvailability) (B : List Appointment)
    (s : TimeSlot) (hs : s ∈ generateSlots W B) :
    (∃ w ∈ W, w.start_time.hour * 60 ≤ s.start_time.toMinutes ∧
        s.end_time.toMinutes ≤ w.end_time.hour * 60) ∧
      s.end_time.toMinutes = s.start_time.toMinutes + 60 ∧
      ((∀ w ∈ W, w.start_time.minute = 0 ∧ w.end_time.minute = 0) →
        ∃ w ∈ W, w.start_time.toMinutes ≤ s.start_time.toMinutes ∧
          s.end_time.toMinutes ≤ w.end_time.toMinutes) ∧
      ∀ b ∈ B, s.start_time ≠ b.start_time := by
  rw [mem_generateSlots] at hs
  obtain ⟨w, hw, hsw⟩ := hs
  rw [mem_slotsForWindow] at hsw
  obtain ⟨h, h1, h2, hb, rfl⟩ := hsw
  refine ⟨⟨w, hw, ?_, ?_⟩, ?_, ?_, ?_⟩
  · simp [Time.toMinutes]; omega
  · simp [Time.toMinutes]; omega
  · simp [Time.toMinutes]; omega
  · intro hmin
    obtain ⟨hws, hwe⟩ := hmin w hw
    exact ⟨w, hw, by simp [Time.toMinutes]; omega, by simp [Time.toMinutes]; omega⟩
  · intro b hbB
    have := isBooked_eq_false_iff.mp hb b hbB
    simp only [Bool.or_eq_false_iff, beq_eq_false_iff_ne] at this
    intro hc
    exact this.1 (by simpa using hc.symm)

/-- C1 (witness). -/
theorem slot_generator_sound_witness :
    (⟨⟨10, 0⟩, ⟨11, 0⟩⟩ : TimeSlot).end_time.toMinutes =
      (⟨⟨10, 0⟩, ⟨11, 0⟩⟩ : TimeSlot).start_time.toMinutes + 60 :=
  (slot_generator_sound [truncateWindowToHours window0930]
    [apptElapsedApproved] ⟨⟨10, 0⟩, ⟨11, 0⟩⟩ (by decide)).2.1

/-- C3: the per-slot booking test rejects a candidate slot if and only if some
booked interval's start equals the slot's start, or some booked interval's
start strictly precedes the slot's start while that interval's end is strictly
after the slot's start; moreover a candidate slot of a window survives into
the window's slot list exactly when the test accepts it, and a booked interval
that starts strictly after the slot's start (in particular one lying strictly
inside the slot) never satisfies the per-interval test. -/
theorem booking_test_characterization (B : List Appointment) (t : Time) :
    (isBooked B t = true ↔
        ∃ b ∈ B, b.start_time = t ∨
          (Time.lt b.start_time t = true ∧ Time.lt t b.end_time = true)) ∧
      (∀ (w : StaffAvailability) (h : Nat),
        w.start_time.hour ≤ h → h + 1 ≤ w.end_time.hour →
        ((⟨⟨h, 0⟩, ⟨h + 1, 0⟩⟩ : TimeSlot) ∈ slotsForWindow B w ↔
          isBooked B ⟨h, 0⟩ = false)) ∧
      ∀ b : Appointment, Time.lt t b.start_time = true →
        (b.start_time == t ||
          (Time.lt b.start_time t && Time.lt t b.end_time)) = false := by
  refine ⟨?_, ?_, ?_⟩
  · simp [isBooked]
  · intro w h hwl hwr
    rw [mem_slotsForWindow]
    constructor
    · rintro ⟨h', _, _, hb, heq⟩
      have hh : h = h' := by
        have := congrArg (fun s => s.start_time.hour) heq
        simpa using this
      rw [← hh] at hb
      exact hb
    · intro hb
      exact ⟨h, hwl, hwr, hb, rfl⟩
  · intro b hlt
    have h1 : Time.lt b.start_time t = false := Time.lt_asymm hlt
    have h2 : b.start_time ≠ t := fun hc => by
      have := Time.ne_of_lt hlt
      exact this hc.symm
    simp [h1, h2]

/-- C3 (witness). -/
theorem booking_test_characterization_witness :
    (apptElapsedApproved.start_time == (⟨8, 0⟩ : Time) ||
      (Time.lt apptElapsedApproved.start_time ⟨8, 0⟩ &&
        Time.lt (⟨8, 0⟩ : Time) apptElapsedApproved.end_time)) = false :=
  (booking_test_characterization [apptElapsedApproved] ⟨8, 0⟩).2.2
    apptElapsedApproved (by decide)

/-- C9: every slot returned by the slot generator is aligned to whole hours —
its start and end both have minute component 0 and its end hour is its start
hour plus one (an exactly one-hour slot) — because the generator reads only
the hour components of each window's start and end time: replacing every
window by its whole-hour truncation leaves the output unchanged.
Consequently, for the window 09:30–11:30 the generator yields the slot
09:00–10:00, which is not a sub-interval of that window. -/
theorem slots_hour_aligned :
    (∀ (W : List StaffAvailability) (B : List Appointment) (s : TimeSlot),
        s ∈ generateSlots W B →
          s.start_time.minute = 0 ∧ s.end_time.minute = 0 ∧
            s.end_time.hour = s.start_time.hour + 1) ∧
      (∀ (W : List StaffAvailability) (B : List Appointment),
        generateSlots (W.map truncateWindowToHours) B = generateSlots W B) ∧
      (slot0900 ∈ generateSlots [window0930] [] ∧
        slot0900.start_time.toMinutes < window0930.start_time.toMinutes) := by
  refine ⟨?_, ?_, by decide⟩
  · intro W B s hs
    rw [mem_generateSlots] at hs
    obtain ⟨w, _, hsw⟩ := hs
    rw [mem_slotsForWindow] at hsw
    obtain ⟨h, _, _, _, rfl⟩ := hsw
    exact ⟨rfl, rfl, rfl⟩
  · intro W B
    have hw : ∀ w, slotsForWindow B (truncateWindowToHours w) = slotsForWindow B w :=
      fun w => rfl
    induction W with
    | nil => rfl
    | cons w ws ih =>
      simp only [List.map_cons, generateSlots, List.flatMap_cons, hw] at *
      rw [ih]

/-- C9 (witness). -/
theorem slots_hour_aligned_witness :
    slot0900.start_time.minute = 0 ∧ slot0900.end_time.minute = 0 ∧
      slot0900.end_time.hour = slot0900.start_time.hour + 1 :=
  slots_hour_aligned.1 [window0930] [] slot0900 (by decide)

/-- C2 (counterexample): the claim "the approved → completed transition is
permitted exactly when the appointment's end instant is not in the future" is
false: for an approved appointment whose window (ending at instant 600) has
elapsed by `now = 2000`, the Mark Complete action is not offered. -/
theorem mark_complete_cex :
    apptElapsedApproved.status = Status.approved ∧
      instantOf apptElapsedApproved.appointment_date
        apptElapsedApproved.end_time ≤ 2000 ∧
      markCompleteOffered Role.staff 2000 apptElapsedApproved = false := by
  decide

/-- C2 (amended): the Mark Complete action (approved → completed) is offered
exactly to the staff view of an approved appointment whose end instant is not
in the past — i.e. before or while its window elapses, and no longer once the
end instant has passed. -/
theorem mark_complete_characterization (role : Role) (now : Nat)
    (a : Appointment) :
    markCompleteOffered role now a = true ↔
      role = Role.staff ∧ a.status = Status.approved ∧
        now ≤ instantOf a.appointment_date a.end_time := by
  cases role <;> cases a <;>
    simp [markCompleteOffered, isPast, instantOf, Time.toMinutes] <;> omega

/-- C4 (counterexample): the claim "a status change violating the transition
table fails with InvalidTransition and leaves the stored record unchanged" is
false: requesting `approved` on a `completed` (terminal) appointment is
applied silently — the stored record's status becomes `approved` and no
failure is reported (the update has no failure path at all). -/
theorem invalid_transition_cex :
    apptCompleted.status = Status.completed ∧
      Status.isTerminal apptCompleted.status = true ∧
      updateAppointmentStatus [apptCompleted] apptCompleted.id
          Status.approved none =
        [{ apptCompleted with status := Status.approved }] ∧
      ({ apptCompleted with status := Status.approved } : Appointment) ≠
        apptCompleted := by
  decide

/-- C4 (amended): `updateAppointmentStatus` performs no transition validation:
for any requested status — regardless of the record's current status,
including the terminal ones — the matching record is replaced by a copy
carrying the requested status (and the given staff notes, when supplied),
with the same id; no InvalidTransition condition exists anywhere in the
operation. -/
theorem update_status_unconditional (store : List Appointment) (aid : String)
    (s : Status) (notes : Option String) (a : Appointment)
    (ha : a ∈ store) (hid : a.id = aid) :
    applyStatusUpdate s notes a ∈ updateAppointmentStatus store aid s notes ∧
      (applyStatusUpdate s notes a).status = s ∧
      (applyStatusUpdate s notes a).id = a.id := by
  refine ⟨?_, rfl, rfl⟩
  rw [updateAppointmentStatus, List.mem_map]
  refine ⟨a, ha, ?_⟩
  simp [hid]

/-- C4 (witness). -/
theorem update_status_unconditional_witness :
    applyStatusUpdate Status.approved none apptCompleted ∈
        updateAppointmentStatus [apptCompleted] "a2" Status.approved none ∧
      (applyStatusUpdate Status.approved none apptCompleted).status =
        Status.approved ∧
      (applyStatusUpdate Status.approved none apptCompleted).id =
        apptCompleted.id :=
  update_status_unconditional [apptCompleted] "a2" Status.approved none
    apptCompleted (by decide) (by decide)

/-- C5 (counterexample): the claim "once a pending/approved appointment exists
for a staff/date/slot, a second booking request for the same slot is rejected
by a store-level conflict check" is false: after student A books the
09:00–10:00 slot (so `slotConflict` holds for that slot), student B's booking
of the very same slot still succeeds — B's record is inserted, and the store
then contains two overlapping pending appointments for the same staff member
and date. -/
theorem double_booking_cex :
    slotConflict storeAfterA "staffS" 7 ⟨9, 0⟩ = true ∧
      mkAppointmentData "idB" "stuB" formSlot0900 ∈ storeAfterB ∧
      overlappingActivePairExists storeAfterB = true := by
  decide

/-- C5 (amended): no store-level conflict check exists: even when
`slotConflict` already holds for the requested staff/date/slot, the booking
path unconditionally inserts the new pending record (the store grows by
exactly one and contains the new record), so two pending appointments for the
same slot can coexist; double-booking is prevented only by the client's
possibly-stale slot list. -/
theorem booking_ignores_conflicts (store : List Appointment)
    (newId studentId : String) (f : AppointmentForm)
    (_hc : slotConflict store f.staff_id f.appointment_date f.start_time = true) :
    mkAppointmentData newId studentId f ∈ bookAppointment store newId studentId f ∧
      (bookAppointment store newId studentId f).length = store.length + 1 := by
  constructor
  · simp [bookAppointment, insertAppointment]
  · simp [bookAppointment, insertAppointment]

/-- C5 (witness). -/
theorem booking_ignores_conflicts_witness :
    mkAppointmentData "idB" "stuB" formSlot0900 ∈
        bookAppointment storeAfterA "idB" "stuB" formSlot0900 ∧
      (bookAppointment storeAfterA "idB" "stuB" formSlot0900).length =
        storeAfterA.length + 1 :=
  booking_ignores_conflicts storeAfterA "idB" "stuB" formSlot0900 (by decide)

/-- C6 (counterexample): the claim "a pending or approved appointment may be
cancelled by the student owner or by the staff owner exactly when its start
instant is not in the past" is false for the staff owner: for a pending
appointment whose start lies in the future of `now = 0`, the staff view
offers no cancel action. -/
theorem cancel_cex :
    apptFuturePending.status = Status.pending ∧
      isPast 0 (instantOf apptFuturePending.appointment_date
        apptFuturePending.start_time) = false ∧
      cancelOffered Role.staff 0 apptFuturePending = false := by
  decide

/-- C6 (amended): the cancel action is offered only in the student view, and
there exactly when the appointment's status is pending or approved and its
start instant is not in the past; the staff view never offers it.  In
particular a pending appointment dated yesterday cannot be cancelled while a
pending appointment dated tomorrow can. -/
theorem cancel_characterization :
    (∀ (now : Nat) (a : Appointment),
        cancelOffered Role.student now a = true ↔
          (a.status = Status.pending ∨ a.status = Status.approved) ∧
            now ≤ instantOf a.appointment_date a.start_time) ∧
      (∀ (now : Nat) (a : Appointment),
        cancelOffered Role.staff now a = false) ∧
      cancelOffered Role.student nowMidday1 apptPendingYesterday = false ∧
      cancelOffered Role.student nowMidday1 apptPendingTomorrow = true := by
  refine ⟨?_, ?_, by decide, by decide⟩
  · intro now a
    cases a with
    | mk id sid fid date st en status subj notes snotes =>
      cases status <;>
        simp [cancelOffered, canCancelAppointment, isPast, instantOf,
          Time.toMinutes] <;> omega
  · intro now a
    simp [cancelOffered]

/-- C7 (counterexample): the claim "pending → approved succeeds only when
invoked by the staff member whose user id equals the record's staff_id; an
invocation by the student on the appointment fails" is false at the store:
the row-level security policies permit the student owner (whose id differs
from `staff_id`) to update the row, and the update applies the requested
`approved` status. -/
theorem approve_by_student_cex :
    apptFuturePending.status = Status.pending ∧
      "stu1" ≠ apptFuturePending.staff_id ∧
      "stu1" = apptFuturePending.student_id ∧
      rlsAppointmentWriteAllowed "stu1" apptFuturePending = true ∧
      (applyStatusUpdate Status.approved none apptFuturePending).status =
        Status.approved := by
  decide

/-- C7 (amended): the Approve action is offered only in the staff view, on
pending appointments, and staff only see appointments whose `staff_id` is
their own user id — so through the interface only the staff owner can request
pending → approved; at the store, however, row-level security admits a write
by either the staff owner or the student owner and rejects exactly the third
parties. -/
theorem approve_authorization :
    (∀ (uid : String) (a : Appointment),
        rlsAppointmentWriteAllowed uid a = true ↔
          a.student_id = uid ∨ a.staff_id = uid) ∧
      (∀ (p : Profile) (store : List Appointment) (a : Appointment),
        a ∈ visibleAppointments p store → approveOffered p.role a = true →
          p.role = Role.staff ∧ a.staff_id = p.user_id ∧
            a.status = Status.pending) := by
  constructor
  · intro uid a
    simp [rlsAppointmentWriteAllowed]
  · intro p store a hvis hoff
    have hoff' : p.role = Role.staff ∧ a.status = Status.pending := by
      simpa [approveOffered] using hoff
    obtain ⟨hrole, hstat⟩ := hoff'
    refine ⟨hrole, ?_, hstat⟩
    rw [visibleAppointments, List.mem_filter, hrole] at hvis
    simpa using hvis.2

/-- C7 (witness). -/
theorem approve_authorization_witness :
    (⟨"staffA", Role.staff⟩ : Profile).role = Role.staff ∧
      apptFuturePending.staff_id = (⟨"staffA", Role.staff⟩ : Profile).user_id ∧
      apptFuturePending.status = Status.pending :=
  approve_authorization.2 ⟨"staffA", Role.staff⟩ [apptFuturePending]
    apptFuturePending (by decide) (by decide)

/-- C10: hard deletion is part of the interface and sits outside the lifecycle
state machine: `deleteAppointment` removes exactly the records with the given
id, unconditionally — membership of a record in the result depends only on
its id, never on its status — and the UI offers the delete action exactly in
the student view on appointments with status pending, where every visible
appointment is owned by the signed-in student. -/
theorem delete_unconditional :
    (∀ (store : List Appointment) (aid : String) (a : Appointment),
        a ∈ store → (a ∈ deleteAppointment store aid ↔ a.id ≠ aid)) ∧
      (∀ (role : Role) (a : Appointment),
        deleteOffered role a = true ↔
          role = Role.student ∧ a.status = Status.pending) ∧
      (∀ (p : Profile) (store : List Appointment) (a : Appointment),
        p.role = Role.student → a ∈ visibleAppointments p store →
          a.student_id = p.user_id) := by
  refine ⟨?_, ?_, ?_⟩
  · intro store aid a ha
    rw [deleteAppointment, List.mem_filter]
    simp [ha]
  · intro role a
    cases role <;> simp [deleteOffered]
  · intro p store a hrole hvis
    rw [visibleAppointments, List.mem_filter, hrole] at hvis
    have := hvis.2
    simp at this
    exact this

/-- C10 (witness). -/
theorem delete_unconditional_witness :
    apptFuturePending ∈ deleteAppointment [apptFuturePending] "other" ↔
      apptFuturePending.id ≠ "other" :=
  delete_unconditional.1 [apptFuturePending] "other" apptFuturePending (by decide)

/-- C8: on failure of the session initialization call (which is raced against
a 10-second timeout; the profile fetch against a 5-second one),
`initializeAuth` makes at most `maxRetries = 3` automatic attempts, sleeping a
fixed `retryDelay = 2000` milliseconds between consecutive attempts; when
every attempt fails it stops after exactly 3 attempts and 2 backoff sleeps,
sets the demo flag, surfaces an error message, and clears the loading flag
instead of retrying further; a successful attempt ends the process at once
with no demo fallback. -/
theorem auth_retry_bounded :
    (∀ succeeds : Nat → Bool, (initializeAuth succeeds 1).attempts ≤ maxRetries) ∧
      (∀ succeeds : Nat → Bool, (∀ k, succeeds k = false) →
        initializeAuth succeeds 1 =
          { attempts := 3, totalSleepMs := 2 * retryDelay, isDemo := true,
            errorMsg := some "Connection failed. Running in demo mode.",
            loading := false }) ∧
      (∀ (succeeds : Nat → Bool) (k : Nat), succeeds k = true →
        initializeAuth succeeds k =
          { attempts := k, totalSleepMs := 0, isDemo := false,
            errorMsg := none, loading := false }) ∧
      maxRetries = 3 ∧ retryDelay = 2000 ∧
      sessionTimeoutMs = 10000 ∧ profileTimeoutMs = 5000 := by
  have hsucc : ∀ (succeeds : Nat → Bool) (k : Nat), succeeds k = true →
      initializeAuth succeeds k =
        { attempts := k, totalSleepMs := 0, isDemo := false,
          errorMsg := none, loading := false } := by
    intro succeeds k hk
    unfold initializeAuth
    simp [hk]
  have hstop : ∀ (succeeds : Nat → Bool) (k : Nat), succeeds k = false →
      maxRetries ≤ k →
      initializeAuth succeeds k =
        { attempts := k, totalSleepMs := 0, isDemo := true,
          errorMsg := some "Connection failed. Running in demo mode.",
          loading := false } := by
    intro succeeds k hk hle
    unfold initializeAuth
    simp [hk]
    omega
  have hstep : ∀ (succeeds : Nat → Bool) (k : Nat), succeeds k = false →
      k < maxRetries →
      initializeAuth succeeds k =
        { initializeAuth succeeds (k + 1) with
          totalSleepMs := retryDelay +
            (initializeAuth succeeds (k + 1)).totalSleepMs } := by
    intro succeeds k hk hlt
    conv =>
      lhs
      unfold initializeAuth
    simp [hk, hlt]
  refine ⟨?_, ?_, hsucc, rfl, rfl, rfl, rfl⟩
  · intro succeeds
    by_cases h1 : succeeds 1 = true
    · rw [hsucc succeeds 1 h1]
      decide
    · rw [Bool.not_eq_true] at h1
      rw [hstep succeeds 1 h1 (by decide)]
      by_cases h2 : succeeds 2 = true
      · rw [hsucc succeeds 2 h2]
        decide
      · rw [Bool.not_eq_true] at h2
        rw [hstep succeeds 2 h2 (by decide)]
        by_cases h3 : succeeds 3 = true
        · rw [hsucc succeeds 3 h3]
          decide
        · rw [Bool.not_eq_true] at h3
          rw [hstop succeeds 3 h3 (by decide)]
          decide
  · intro succeeds hall
    rw [hstep succeeds 1 (hall 1) (by decide),
      hstep succeeds 2 (hall 2) (by decide),
      hstop succeeds 3 (hall 3) (by decide)]
    rfl

/-- C8 (witness). -/
theorem auth_retry_bounded_witness :
    initializeAuth (fun _ => false) 1 =
      { attempts := 3, totalSleepMs := 2 * retryDelay, isDemo := true,
        errorMsg := some "Connection failed. Running in demo mode.",
        loading := false } :=
  auth_retry_bounded.2.1 (fun _ => false) (fun _ => rfl)

end Vanta
